import Mathlib

/-!
Shallow embedding of the gamification / progress-aggregation core of the
task-manager backend (`src/server.js`), together with theorems settling the
frozen claims about it.

Modelling conventions:
* Machine timestamps (JS `Date` values, milliseconds since the epoch) are `Int`.
  JS `setHours(0,0,0,0)` midnight normalization and `toDateString()` calendar-day
  equality are modelled on a timezone/DST-free calendar: day `k` spans
  `[k * dayMs, (k+1) * dayMs)`.
* JS numbers used as counters/points are `Nat` (they are only ever incremented
  from non-negative literals in the source).
* `Math.round((completed / n) * 100)` (double arithmetic) is idealized as exact
  round-half-up on the rational `100 * completed / n`, i.e. `(200*c + n) / (2*n)`
  in natural-number division.
* Mongo documents are records in per-collection lists; `find?` models `findOne`
  (first match), `filter`/`eraseP` model `deleteMany`/`findOneAndDelete`, and a
  mongoose `save()` writes the document back by id.
* Display-only fields never read by the modelled logic (titles, icons, tags,
  emails, password hashes, createdAt) are omitted.
-/

namespace TaskManager

/-- Milliseconds per day, the constant `1000*60*60*24` from the source. -/
def dayMs : Int := 86400000

/-- `task.priority` enum from the Task schema. -/
inductive Priority where
  | low
  | medium
  | high
deriving DecidableEq

/-- `task.type` enum from the Task schema (`'daily' | 'deadline'`). -/
inductive TaskType where
  | daily
  | deadline
deriving DecidableEq

/-- `task.status` enum from the Task schema (`'pending' | 'completed'`). -/
inductive Status where
  | pending
  | completed
deriving DecidableEq

/-- Ids of the fixed achievement catalog (`ACHIEVEMENTS` in the source). -/
inductive AchId where
  | first_task
  | streak_7
  | tasks_100
  | early_10
  | points_1000
  | tasks_10
deriving DecidableEq

/-- User document: `points`, `streak`, `lastActiveDate` fields of the schema. -/
structure User where
  id : Nat
  points : Nat
  streak : Nat
  lastActiveDate : Int
deriving DecidableEq

/-- Section document: `userId` and `order` fields of the schema. -/
structure Section where
  id : Nat
  userId : Nat
  order : Nat
deriving DecidableEq

/-- Subsection document: `sectionId`, `userId`, `order` fields of the schema. -/
structure Subsection where
  id : Nat
  sectionId : Nat
  userId : Nat
  order : Nat
deriving DecidableEq

/-- Task document (claim-relevant fields of the Task schema). -/
structure Task where
  id : Nat
  userId : Nat
  sectionId : Nat
  subsectionId : Option Nat
  ty : TaskType
  targetDate : Option Int
  deadline : Option Int
  priority : Priority
  status : Status
  completedAt : Option Int
deriving DecidableEq

/-- Achievement-unlock document (the `Achievement` model of the source). -/
structure Achievement where
  userId : Nat
  achievementId : AchId
  unlockedAt : Int
deriving DecidableEq

/-- Catalog entry: id plus point reward (the closure `check` is modelled by
`achCheck` below, keyed on the id). -/
structure AchSpec where
  id : AchId
  points : Nat
deriving DecidableEq

/-- The persistent store: one list per Mongo collection. -/
structure DB where
  users : List User
  sections : List Section
  subsections : List Subsection
  tasks : List Task
  achievements : List Achievement
deriving DecidableEq

def DB.empty : DB := ⟨[], [], [], [], []⟩

/-- `User.findById(uid)`. -/
def findUser (db : DB) (uid : Nat) : Option User :=
  db.users.find? (fun u => decide (u.id = uid))

/-- Mongoose `user.save()`: write the document back by id. -/
def saveUser (db : DB) (u : User) : DB :=
  { db with users := db.users.map (fun v => if v.id = u.id then u else v) }

/-- `Task.findOne({ _id: tid, userId: uid })`. -/
def findTaskOwned (db : DB) (tid uid : Nat) : Option Task :=
  db.tasks.find? (fun t => decide (t.id = tid ∧ t.userId = uid))

/-- Mongoose `task.save()`: write the document back by id. -/
def saveTask (db : DB) (t : Task) : DB :=
  { db with tasks := db.tasks.map (fun x => if x.id = t.id then t else x) }

/-- `u.points` of the stored user (the code would crash on a missing user; all
theorems below only use this where the user exists). -/
def userPoints (db : DB) (uid : Nat) : Nat :=
  match findUser db uid with
  | some u => u.points
  | none => 0

/-- `u.streak` of the stored user. -/
def userStreak (db : DB) (uid : Nat) : Nat :=
  match findUser db uid with
  | some u => u.streak
  | none => 0

/-- `Task.countDocuments({ userId, status: 'completed' })`. -/
def completedCount (db : DB) (uid : Nat) : Nat :=
  (db.tasks.filter (fun t => decide (t.userId = uid ∧ t.status = Status.completed))).length

/-- `Task.countDocuments({ userId, status: 'completed', type: 'deadline',
$expr: { $lt: ['$completedAt', '$deadline'] } })`. -/
def earlyCount (db : DB) (uid : Nat) : Nat :=
  (db.tasks.filter (fun t =>
    decide (t.userId = uid ∧ t.status = Status.completed ∧ t.ty = TaskType.deadline) &&
    (match t.completedAt, t.deadline with
     | some c, some d => decide (c < d)
     | _, _ => false))).length

/-- The `check` closure of each `ACHIEVEMENTS` entry, evaluated against the
current store state. -/
def achCheck (db : DB) (uid : Nat) : AchId → Bool
  | AchId.first_task => decide (completedCount db uid ≥ 1)
  | AchId.streak_7 => decide (userStreak db uid ≥ 7)
  | AchId.tasks_100 => decide (completedCount db uid ≥ 100)
  | AchId.early_10 => decide (earlyCount db uid ≥ 10)
  | AchId.points_1000 => decide (userPoints db uid ≥ 1000)
  | AchId.tasks_10 => decide (completedCount db uid ≥ 10)

/-- The fixed catalog, in the source's array order with the source's rewards. -/
def ACHIEVEMENTS : List AchSpec :=
  [⟨AchId.first_task, 50⟩, ⟨AchId.streak_7, 200⟩, ⟨AchId.tasks_100, 500⟩,
   ⟨AchId.early_10, 150⟩, ⟨AchId.points_1000, 300⟩, ⟨AchId.tasks_10, 100⟩]

/-- `Achievement.findOne({ userId, achievementId })` viewed as a Bool. -/
def hasUnlock (db : DB) (uid : Nat) (a : AchId) : Bool :=
  db.achievements.any (fun r => decide (r.userId = uid ∧ r.achievementId = a))

/-- `new Achievement({ userId, achievementId }).save()`. -/
def addUnlock (db : DB) (uid : Nat) (a : AchId) (now : Int) : DB :=
  { db with achievements := db.achievements ++ [⟨uid, a, now⟩] }

/-- `const user = await User.findById(userId); user.points += n; user.save()`. -/
def creditUser (db : DB) (uid : Nat) (n : Nat) : DB :=
  match findUser db uid with
  | some u => saveUser db { u with points := u.points + n }
  | none => db

/-- The `for (const ach of ACHIEVEMENTS)` loop body of `checkAchievements`:
skip if an unlock record exists, otherwise evaluate the predicate on the
current state, persist the unlock, credit the reward and collect the entry. -/
def checkLoop (uid : Nat) (now : Int) : List AchSpec → DB → List AchSpec → DB × List AchSpec
  | [], db, acc => (db, acc)
  | a :: rest, db, acc =>
    if !hasUnlock db uid a.id && achCheck db uid a.id then
      checkLoop uid now rest (creditUser (addUnlock db uid a.id now) uid a.points) (acc ++ [a])
    else
      checkLoop uid now rest db acc

/-- `checkAchievements(userId)`: returns the updated store and the list of
newly unlocked catalog entries. -/
def checkAchievements (db : DB) (uid : Nat) (now : Int) : DB × List AchSpec :=
  checkLoop uid now ACHIEVEMENTS db []

/-- Error outcomes of `POST /api/tasks/:id/complete`. -/
inductive CompleteError where
  | notFound
  | alreadyCompleted
deriving DecidableEq

/-- The JSON body returned by `POST /api/tasks/:id/complete`. -/
structure CompleteResult where
  task : Task
  pointsEarned : Nat
  totalPoints : Nat
  newAchievements : List AchSpec
deriving DecidableEq

/-- The point computation of the completion route (lines 302-309):
base 50, raised to 100 for high / 75 for medium, plus 25 iff the task is
deadline-typed with a set deadline lying strictly after `now`. -/
def pointsFor (t : Task) (now : Int) : Nat :=
  let points := 50
  let points := if t.priority = Priority.high then 100
    else if t.priority = Priority.medium then 75 else points
  if t.ty = TaskType.deadline then
    match t.deadline with
    | some d => if now < d then points + 25 else points
    | none => points
  else points

/-- `POST /api/tasks/:id/complete` (lines 291-321): returns the store after the
request together with the response. `user` is `req.user`, the authenticated
user document loaded by the auth middleware. -/
def completeTask (db : DB) (user : User) (tid : Nat) (now : Int) :
    DB × Except CompleteError CompleteResult :=
  match findTaskOwned db tid user.id with
  | none => (db, Except.error CompleteError.notFound)
  | some task =>
    if task.status = Status.completed then
      (db, Except.error CompleteError.alreadyCompleted)
    else
      let task' := { task with status := Status.completed, completedAt := some now }
      let db1 := saveTask db task'
      let pts := pointsFor task' now
      let user' := { user with points := user.points + pts }
      let db2 := saveUser db1 user'
      let r := checkAchievements db2 user.id now
      (r.1, Except.ok ⟨task', pts, user'.points, r.2⟩)

/-- `setHours(0,0,0,0)`: midnight of the calendar day containing `t`. -/
def midnightOf (t : Int) : Int := dayMs * (t.fdiv dayMs)

/-- The streak update of `POST /api/auth/login` (lines 137-144). The JS
division `(today - lastActive) / 86400000` is exact there because both operands
are midnights; `fdiv` coincides with it. -/
def updateStreak (u : User) (now : Int) : User :=
  let dayDiff := (midnightOf now - midnightOf u.lastActiveDate).fdiv dayMs
  let streak := if dayDiff = 1 then u.streak + 1
    else if dayDiff > 1 then 1 else u.streak
  { u with streak := streak, lastActiveDate := now }

/-- `DELETE /api/sections/:id` (lines 213-222): `Task.deleteMany({sectionId})`,
`Subsection.deleteMany({sectionId})` (neither filtered by user), then
`Section.findOneAndDelete({_id, userId})`. -/
def deleteSectionHandler (db : DB) (uid sid : Nat) : DB :=
  let db := { db with tasks := db.tasks.filter (fun t => !decide (t.sectionId = sid)) }
  let db := { db with subsections := db.subsections.filter (fun s => !decide (s.sectionId = sid)) }
  { db with sections := db.sections.eraseP (fun s => decide (s.id = sid ∧ s.userId = uid)) }

/-- `DELETE /api/subsections/:id` (lines 251-259): `Task.deleteMany({subsectionId})`
(not filtered by user), then `Subsection.findOneAndDelete({_id, userId})`. -/
def deleteSubsectionHandler (db : DB) (uid sid : Nat) : DB :=
  let db := { db with tasks := db.tasks.filter (fun t => !decide (t.subsectionId = some sid)) }
  { db with subsections := db.subsections.eraseP (fun s => decide (s.id = sid ∧ s.userId = uid)) }

/-- `Section.countDocuments({ userId })`. -/
def countSections (db : DB) (uid : Nat) : Nat :=
  (db.sections.filter (fun s => decide (s.userId = uid))).length

/-- `POST /api/sections` (lines 189-199): the new section's `order` is the
user's current section count; `sid` stands for the Mongo-generated id. -/
def createSection (db : DB) (uid sid : Nat) : DB :=
  { db with sections := db.sections ++ [⟨sid, uid, countSections db uid⟩] }

/-- A user-initiated section operation (create or delete), for reachability. -/
inductive SectionOp where
  | create (uid sid : Nat)
  | del (uid sid : Nat)

def SectionOp.isCreate : SectionOp → Bool
  | SectionOp.create _ _ => true
  | SectionOp.del _ _ => false

def applySectionOp (db : DB) : SectionOp → DB
  | SectionOp.create uid sid => createSection db uid sid
  | SectionOp.del uid sid => deleteSectionHandler db uid sid

def runSectionOps (db : DB) (ops : List SectionOp) : DB :=
  ops.foldl applySectionOp db

/-- The `order` values of one user's sections. -/
def ordersOf (db : DB) (uid : Nat) : List Nat :=
  (db.sections.filter (fun s => decide (s.userId = uid))).map Section.order

/-- Number of completed tasks in a list (`tasks.filter(t => t.status === 'completed').length`). -/
def completedIn (tasks : List Task) : Nat :=
  (tasks.filter (fun t => decide (t.status = Status.completed))).length

/-- `n ? Math.round((c / n) * 100) : 0`, with the double arithmetic idealized
as exact round-half-up: `(200*c + n) / (2*n) = ⌊100*c/n + 1/2⌋` for `n > 0`. -/
def percentCounts (c n : Nat) : Nat :=
  if n = 0 then 0 else (200 * c + n) / (2 * n)

/-- The completion-percent expression used by `GET /api/sections` and
`GET /api/stats/weekly`. -/
def percentOf (tasks : List Task) : Nat :=
  percentCounts (completedIn tasks) tasks.length

/-- `Task.find({ subsectionId: sub._id })`. -/
def subsectionTasks (db : DB) (subId : Nat) : List Task :=
  db.tasks.filter (fun t => decide (t.subsectionId = some subId))

/-- `Task.find({ sectionId: section._id, subsectionId: null })`. -/
def sectionDirectTasks (db : DB) (secId : Nat) : List Task :=
  db.tasks.filter (fun t => decide (t.sectionId = secId ∧ t.subsectionId = none))

/-- `Subsection.find({ sectionId: section._id })`. The `.sort('order')` of the
source only affects display order, not the aggregate counts modelled here. -/
def sectionSubsections (db : DB) (secId : Nat) : List Subsection :=
  db.subsections.filter (fun s => decide (s.sectionId = secId))

/-- `allTasks = [...sectionTasks, ...subsWithTasks.flatMap(s => s.tasks)]`. -/
def sectionAllTasks (db : DB) (secId : Nat) : List Task :=
  sectionDirectTasks db secId ++
    (sectionSubsections db secId).flatMap (fun s => subsectionTasks db s.id)

/-- A subsection's `completionPercent` in the `GET /api/sections` response. -/
def subsectionPercent (db : DB) (subId : Nat) : Nat :=
  percentOf (subsectionTasks db subId)

/-- A section's `completionPercent` in the `GET /api/sections` response. -/
def sectionPercent (db : DB) (secId : Nat) : Nat :=
  percentOf (sectionAllTasks db secId)

/-- One element of the `GET /api/stats/weekly` response. -/
structure DaySummary where
  date : Int
  total : Nat
  completed : Nat
  percent : Nat
deriving DecidableEq

/-- A Mongo range condition `{ field: { $gte: lo, $lte: hi } }` on an optional
date field (a null/absent field matches no range condition). -/
def dateMatches (o : Option Int) (lo hi : Int) : Bool :=
  match o with
  | some d => decide (lo ≤ d ∧ d ≤ hi)
  | none => false

/-- `const td = t.targetDate || t.deadline` (Date objects are always truthy). -/
def taskDay (t : Task) : Option Int :=
  match t.targetDate with
  | some d => some d
  | none => t.deadline

/-- `toDateString()` equality: the calendar-day index of a timestamp. -/
def toDay (t : Int) : Int := t.fdiv dayMs

/-- The Mongo filter of `GET /api/stats/weekly`: user's tasks whose targetDate
or deadline lies in `[now - 7 days, now]`. -/
def weeklyWindow (uid : Nat) (now : Int) (t : Task) : Bool :=
  decide (t.userId = uid) &&
    (dateMatches t.targetDate (now - 7 * dayMs) now ||
     dateMatches t.deadline (now - 7 * dayMs) now)

/-- `new Date(td).toDateString() === d.toDateString()`. -/
def onDay (t : Task) (d : Int) : Bool :=
  match taskDay t with
  | some td => decide (toDay td = toDay d)
  | none => false

/-- `GET /api/stats/weekly` (lines 442-469): pre-filter by the 7-day timestamp
window, then bucket by calendar-day equality for `i = 6..0`. -/
def weeklyHeatmap (db : DB) (uid : Nat) (now : Int) : List DaySummary :=
  let tasks := db.tasks.filter (weeklyWindow uid now)
  (List.range 7).map (fun (j : Nat) =>
    let d := now - ((6 : Int) - (j : Int)) * dayMs
    let dayTasks := tasks.filter (fun t => onDay t d)
    ⟨d, dayTasks.length, completedIn dayTasks, percentOf dayTasks⟩)

/-! ### Spec-side definitions (formalizing the claims' own wording) -/

/-- Modelled from the spec: the base point award by priority
(low → 50, medium → 75, high → 100). -/
def specBase : Priority → Nat
  | Priority.low => 50
  | Priority.medium => 75
  | Priority.high => 100

/-- The catalog order asserted by claim C5 (the spec's §4.3 table order). -/
def claimedCatalogOrder : List AchId :=
  [AchId.first_task, AchId.tasks_10, AchId.tasks_100, AchId.streak_7,
   AchId.points_1000, AchId.early_10]

/-- The catalog order the code actually evaluates. -/
def codeCatalogOrder : List AchId :=
  [AchId.first_task, AchId.streak_7, AchId.tasks_100, AchId.early_10,
   AchId.points_1000, AchId.tasks_10]

/-! ### Helper lemmas about the point computation -/

lemma pointsFor_bonus (t : Task) (now d : Int) (hd : t.deadline = some d)
    (hlt : now < d) (hty : t.ty = TaskType.deadline) :
    pointsFor t now = specBase t.priority + 25 := by
  unfold pointsFor specBase
  rw [hty, hd]
  cases t.priority <;> simp [hlt]

lemma pointsFor_daily (t : Task) (now : Int) (hty : t.ty = TaskType.daily) :
    pointsFor t now = specBase t.priority := by
  unfold pointsFor specBase
  rw [hty]
  cases t.priority <;> simp

lemma pointsFor_no_deadline (t : Task) (now : Int) (hd : t.deadline = none) :
    pointsFor t now = specBase t.priority := by
  unfold pointsFor specBase
  rw [hd]
  cases t.priority <;> cases t.ty <;> simp

lemma pointsFor_late (t : Task) (now d : Int) (hd : t.deadline = some d)
    (hge : d ≤ now) :
    pointsFor t now = specBase t.priority := by
  unfold pointsFor specBase
  rw [hd]
  have : ¬ now < d := not_lt.mpr hge
  cases t.priority <;> cases t.ty <;> simp [this]

/-! ### Helper lemmas about the achievement engine -/

lemma creditUser_achievements (db : DB) (uid n : Nat) :
    (creditUser db uid n).achievements = db.achievements := by
  unfold creditUser
  cases findUser db uid <;> rfl

lemma creditUser_tasks (db : DB) (uid n : Nat) :
    (creditUser db uid n).tasks = db.tasks := by
  unfold creditUser
  cases findUser db uid <;> rfl

lemma creditUser_sections (db : DB) (uid n : Nat) :
    (creditUser db uid n).sections = db.sections := by
  unfold creditUser
  cases findUser db uid <;> rfl

lemma creditUser_subsections (db : DB) (uid n : Nat) :
    (creditUser db uid n).subsections = db.subsections := by
  unfold creditUser
  cases findUser db uid <;> rfl

lemma find?_user_save (l : List User) (uid : Nat) (u' : User) (hid : u'.id = uid)
    (h : (l.find? (fun v => decide (v.id = uid))).isSome) :
    (l.map (fun v => if v.id = u'.id then u' else v)).find? (fun v => decide (v.id = uid))
      = some u' := by
  induction l with
  | nil => simp [List.find?] at h
  | cons v tl ih =>
    by_cases hv : v.id = uid
    · have hvu : v.id = u'.id := by rw [hv, hid]
      simp only [List.map_cons, if_pos hvu]
      exact List.find?_cons_of_pos _ (by simp [hid])
    · have hvu : ¬ v.id = u'.id := by rw [hid]; exact hv
      simp only [List.map_cons, if_neg hvu]
      rw [List.find?_cons_of_neg _ (by simp [hv])]
      rw [List.find?_cons_of_neg _ (by simp [hv])] at h
      exact ih h

lemma findUser_creditUser (db : DB) (uid n : Nat) :
    findUser (creditUser db uid n) uid
      = (findUser db uid).map (fun u => { u with points := u.points + n }) := by
  unfold creditUser
  cases h : findUser db uid with
  | none => simp [h]
  | some u =>
    have hid : u.id = uid := by
      have := List.find?_some h
      exact of_decide_eq_true this
    simp only [Option.map_some']
    exact find?_user_save db.users uid _ hid (by rw [show db.users.find? (fun v => decide (v.id = uid)) = some u from h]; rfl)

lemma checkLoop_cons_fire (uid : Nat) (now : Int) (a : AchSpec) (rest : List AchSpec)
    (db : DB) (acc : List AchSpec)
    (hfire : (!hasUnlock db uid a.id && achCheck db uid a.id) = true) :
    checkLoop uid now (a :: rest) db acc
      = checkLoop uid now rest (creditUser (addUnlock db uid a.id now) uid a.points) (acc ++ [a]) := by
  simp only [checkLoop, hfire, if_pos]

lemma checkLoop_cons_skip (uid : Nat) (now : Int) (a : AchSpec) (rest : List AchSpec)
    (db : DB) (acc : List AchSpec)
    (hfire : (!hasUnlock db uid a.id && achCheck db uid a.id) = false) :
    checkLoop uid now (a :: rest) db acc = checkLoop uid now rest db acc := by
  simp only [checkLoop, hfire]
  rfl

/-- Characterization of the `checkAchievements` loop: the newly unlocked
entries extend the accumulator, follow the catalog order, were not previously
unlocked, add exactly one unlock record each, and credit the user with exactly
the sum of their rewards; no other collection is touched, and an empty result
leaves the store unchanged. -/
lemma checkLoop_spec (uid : Nat) (now : Int) (l : List AchSpec) :
    ∀ (db : DB) (acc : List AchSpec),
      ∃ news,
        (checkLoop uid now l db acc).2 = acc ++ news ∧
        List.Sublist (news.map AchSpec.id) (l.map AchSpec.id) ∧
        (∀ a ∈ news, hasUnlock db uid a.id = false) ∧
        (checkLoop uid now l db acc).1.achievements
          = db.achievements ++ news.map (fun a => Achievement.mk uid a.id now) ∧
        findUser (checkLoop uid now l db acc).1 uid
          = (findUser db uid).map
              (fun u => { u with points := u.points + (news.map AchSpec.points).sum }) ∧
        (checkLoop uid now l db acc).1.tasks = db.tasks ∧
        (checkLoop uid now l db acc).1.sections = db.sections ∧
        (checkLoop uid now l db acc).1.subsections = db.subsections ∧
        (news = [] → (checkLoop uid now l db acc).1 = db) := by
  induction l with
  | nil =>
    intro db acc
    refine ⟨[], by simp [checkLoop], by simp, by simp, by simp [checkLoop], ?_, rfl, rfl, rfl, fun _ => rfl⟩
    show findUser db uid = (findUser db uid).map (fun u => { u with points := u.points + ([] : List AchSpec).foldr (fun a s => AchSpec.points a + s) 0 })
    cases findUser db uid <;> simp
  | cons a rest ih =>
    intro db acc
    cases hfire : (!hasUnlock db uid a.id && achCheck db uid a.id) with
    | false =>
      rw [checkLoop_cons_skip uid now a rest db acc hfire]
      obtain ⟨news, h1, h2, h3, h4, h5, h6, h7, h8, h9⟩ := ih db acc
      exact ⟨news, h1, h2.cons a.id, h3, h4, h5, h6, h7, h8, h9⟩
    | true =>
      rw [checkLoop_cons_fire uid now a rest db acc hfire]
      have hnotun : hasUnlock db uid a.id = false := by
        have := ((Bool.and_eq_true _ _).mp hfire).1
        simpa using this
      set db' := creditUser (addUnlock db uid a.id now) uid a.points with hdb'
      have hach' : db'.achievements = db.achievements ++ [⟨uid, a.id, now⟩] := by
        rw [hdb', creditUser_achievements]
        rfl
      obtain ⟨news', h1, h2, h3, h4, h5, h6, h7, h8, _⟩ := ih db' (acc ++ [a])
      refine ⟨a :: news', ?_, ?_, ?_, ?_, ?_, ?_, ?_, ?_, ?_⟩
      · rw [h1, List.append_assoc]
        rfl
      · exact h2.cons₂ a.id
      · intro x hx
        rcases List.mem_cons.mp hx with hxa | hx'
        · rw [hxa]; exact hnotun
        · have hx3 := h3 x hx'
          unfold hasUnlock at hx3 ⊢
          rw [hach', List.any_append] at hx3
          exact (Bool.or_eq_false_iff.mp hx3).1
      · rw [h4, hach', List.append_assoc]
        rfl
      · rw [h5]
        have : findUser db' uid
            = (findUser db uid).map (fun u => { u with points := u.points + a.points }) := by
          rw [hdb', findUser_creditUser]
          rfl
        rw [this, Option.map_map]
        cases findUser db uid <;> simp [Nat.add_assoc]
      · rw [h6, hdb', creditUser_tasks]; rfl
      · rw [h7, hdb', creditUser_sections]; rfl
      · rw [h8, hdb', creditUser_subsections]; rfl
      · intro hempty
        cases hempty

/-! ### Concrete stores used as witnesses and counterexamples -/

/-- A completed daily task of user 9 (used to populate witness stores). -/
def doneTask (i : Nat) : Task :=
  ⟨i, 9, 0, none, TaskType.daily, none, none, Priority.medium, Status.completed, some 0⟩

/-- A pending high-priority deadline task (deadline at time 1000) of user 9. -/
def pendingDeadlineTask : Task :=
  ⟨1, 9, 0, none, TaskType.deadline, none, some 1000, Priority.high, Status.pending, none⟩

/-- Store for the C1/C10 witnesses: one user, one pending task. -/
def dbPending : DB :=
  ⟨[⟨9, 0, 0, 0⟩], [], [], [pendingDeadlineTask], []⟩

/-- Store for the C2 witness: one user, one already-completed task. -/
def dbDone : DB :=
  ⟨[⟨9, 0, 0, 0⟩], [], [], [doneTask 1], []⟩

/-- Store for the C5 counterexample: user 9 with streak 7, points 0, ten
completed tasks, nothing unlocked. Three achievements fire in one pass, and
their order in the response exposes the evaluation order. -/
def dbOrder : DB :=
  ⟨[⟨9, 0, 7, 0⟩], [], [], (List.range 10).map doneTask, []⟩

/-- Store for the same-pass cascade: user 9 at 900 points with streak 7 and one
completed task; `first_task` and `streak_7` rewards (50+200) push the re-read
points over 1000, so `points_1000` unlocks in the same pass. -/
def dbCascade : DB :=
  ⟨[⟨9, 900, 7, 0⟩], [], [], [doneTask 0], []⟩

/-- Store for the C6 counterexample: user 9 at 950 points, ten completed tasks,
`first_task` already unlocked. The first pass checks `points_1000` at 950
(fails) and then unlocks `tasks_10` (+100), so a second pass unlocks
`points_1000`. -/
def dbNearThousand : DB :=
  ⟨[⟨9, 950, 0, 0⟩], [], [], (List.range 10).map doneTask, [⟨9, AchId.first_task, 0⟩]⟩

/-- Store for the C6 witness: a user with no tasks, so nothing unlocks. -/
def dbQuiet : DB := ⟨[⟨9, 0, 0, 0⟩], [], [], [], []⟩

/-! ### C1 -/

/-- C1: completing a pending task awards base points 50/75/100 by priority
(low/medium/high); a 25-point bonus is added iff the task is deadline-typed
with a set deadline strictly after the completion time (so daily tasks and
late completions get no bonus), and `totalPoints` reflects the award added to
the user's points. -/
theorem C1_completion_points (db : DB) (user : User) (tid : Nat) (now : Int)
    (task : Task)
    (h1 : findTaskOwned db tid user.id = some task)
    (h2 : task.status = Status.pending) :
    ∃ db' r, completeTask db user tid now = (db', Except.ok r) ∧
      r.totalPoints = user.points + r.pointsEarned ∧
      (∀ d, task.deadline = some d → now < d → task.ty = TaskType.deadline →
        r.pointsEarned = specBase task.priority + 25) ∧
      (task.ty = TaskType.daily → r.pointsEarned = specBase task.priority) ∧
      (task.deadline = none → r.pointsEarned = specBase task.priority) ∧
      (∀ d, task.deadline = some d → d ≤ now → r.pointsEarned = specBase task.priority) := by
  have hne : ¬ task.status = Status.completed := by
    rw [h2]; intro hc; cases hc
  unfold completeTask
  rw [h1]
  dsimp only
  rw [if_neg hne]
  refine ⟨_, _, rfl, rfl, ?_, ?_, ?_, ?_⟩
  · intro d hd hlt hty
    exact pointsFor_bonus _ now d hd hlt hty
  · intro hty
    exact pointsFor_daily _ now hty
  · intro hd
    exact pointsFor_no_deadline _ now hd
  · intro d hd hge
    exact pointsFor_late _ now d hd hge

/-- Witness for C1 at a concrete store: user 9 completes a pending
high-priority deadline task strictly before its deadline. -/
theorem C1_completion_points_witness :
    ∃ db' r, completeTask dbPending ⟨9, 0, 0, 0⟩ 1 5 = (db', Except.ok r) ∧
      r.totalPoints = (0 : Nat) + r.pointsEarned ∧
      (∀ d, pendingDeadlineTask.deadline = some d → 5 < d →
        pendingDeadlineTask.ty = TaskType.deadline →
        r.pointsEarned = specBase pendingDeadlineTask.priority + 25) ∧
      (pendingDeadlineTask.ty = TaskType.daily →
        r.pointsEarned = specBase pendingDeadlineTask.priority) ∧
      (pendingDeadlineTask.deadline = none →
        r.pointsEarned = specBase pendingDeadlineTask.priority) ∧
      (∀ d, pendingDeadlineTask.deadline = some d → d ≤ 5 →
        r.pointsEarned = specBase pendingDeadlineTask.priority) :=
  C1_completion_points dbPending ⟨9, 0, 0, 0⟩ 1 5 pendingDeadlineTask
    (by decide) (by decide)

/-! ### C2 -/

/-- C2: attempting to complete an already-completed task fails with the
AlreadyCompleted error and returns the store unchanged: no task, user-point,
or achievement state is touched and the achievement check never runs. -/
theorem C2_already_completed (db : DB) (user : User) (tid : Nat) (now : Int)
    (task : Task)
    (h1 : findTaskOwned db tid user.id = some task)
    (h2 : task.status = Status.completed) :
    completeTask db user tid now = (db, Except.error CompleteError.alreadyCompleted) := by
  unfold completeTask
  rw [h1]
  dsimp only
  rw [if_pos h2]

/-- Witness for C2 at a concrete store with an already-completed task. -/
theorem C2_already_completed_witness :
    completeTask dbDone ⟨9, 0, 0, 0⟩ 1 5 =
      (dbDone, Except.error CompleteError.alreadyCompleted) :=
  C2_already_completed dbDone ⟨9, 0, 0, 0⟩ 1 5 (doneTask 1) (by decide) (by decide)

/-! ### C5 -/

/-- C5 counterexample: the catalog is not evaluated in the claimed order
`first_task, tasks_10, tasks_100, streak_7, points_1000, early_10`; at
`dbOrder` the unlock sequence is `first_task, streak_7, tasks_10`, not the
`first_task, tasks_10, streak_7` the claimed order would produce. -/
theorem C5_catalog_order_counterexample :
    ACHIEVEMENTS.map AchSpec.id ≠ claimedCatalogOrder ∧
    (checkAchievements dbOrder 9 0).2.map AchSpec.id
      = [AchId.first_task, AchId.streak_7, AchId.tasks_10] ∧
    ([AchId.first_task, AchId.streak_7, AchId.tasks_10] : List AchId)
      ≠ [AchId.first_task, AchId.tasks_10, AchId.streak_7] := by
  refine ⟨by decide, by decide, by decide⟩

/-- C5 amended: `checkAchievements` evaluates the catalog sequentially in the
code's order `first_task, streak_7, tasks_100, early_10, points_1000,
tasks_10`, skipping entries already unlocked for the user, re-reading state at
each step (at `dbCascade`, rewards granted earlier in the pass push
`points_1000` over its threshold although the initial points are below 1000);
each new unlock persists exactly one unlock record and one points increment
equal to that entry's reward. -/
theorem C5_check_achievements_amended (db : DB) (uid : Nat) (now : Int) :
    ACHIEVEMENTS.map AchSpec.id = codeCatalogOrder ∧
    List.Sublist ((checkAchievements db uid now).2.map AchSpec.id) codeCatalogOrder ∧
    (∀ a ∈ (checkAchievements db uid now).2, hasUnlock db uid a.id = false) ∧
    (checkAchievements db uid now).1.achievements
      = db.achievements
        ++ (checkAchievements db uid now).2.map (fun a => Achievement.mk uid a.id now) ∧
    ((findUser db uid).isSome = true →
      userPoints (checkAchievements db uid now).1 uid
        = userPoints db uid + ((checkAchievements db uid now).2.map AchSpec.points).sum) ∧
    (checkAchievements dbCascade 9 0).2.map AchSpec.id
      = [AchId.first_task, AchId.streak_7, AchId.points_1000] ∧
    userPoints dbCascade 9 < 1000 := by
  obtain ⟨news, h1, h2, h3, h4, h5, -, -, -, -⟩ := checkLoop_spec uid now ACHIEVEMENTS db []
  rw [List.nil_append] at h1
  have hord : ACHIEVEMENTS.map AchSpec.id = codeCatalogOrder := by decide
  refine ⟨hord, ?_, ?_, ?_, ?_, by decide, by decide⟩
  · show List.Sublist ((checkLoop uid now ACHIEVEMENTS db []).2.map AchSpec.id) codeCatalogOrder
    rw [h1, ← hord]
    exact h2
  · intro a ha
    have ha' : a ∈ news := by
      rw [show (checkAchievements db uid now).2 = news from h1] at ha
      exact ha
    exact h3 a ha'
  · show (checkLoop uid now ACHIEVEMENTS db []).1.achievements
      = db.achievements ++ (checkLoop uid now ACHIEVEMENTS db []).2.map (fun a => Achievement.mk uid a.id now)
    rw [h1]
    exact h4
  · intro hsome
    cases hu : findUser db uid with
    | none => rw [hu] at hsome; simp at hsome
    | some u =>
      rw [hu] at h5
      simp only [Option.map_some'] at h5
      show userPoints (checkLoop uid now ACHIEVEMENTS db []).1 uid
        = userPoints db uid + ((checkLoop uid now ACHIEVEMENTS db []).2.map AchSpec.points).sum
      rw [h1]
      unfold userPoints
      rw [h5, hu]

/-- Witness for C5's amended claim: at `dbOrder`, the user's stored points grow
by exactly the sum of the rewards of the unlocked entries. -/
theorem C5_check_achievements_amended_witness :
    userPoints (checkAchievements dbOrder 9 0).1 9
      = userPoints dbOrder 9 + ((checkAchievements dbOrder 9 0).2.map AchSpec.points).sum :=
  (C5_check_achievements_amended dbOrder 9 0).2.2.2.2.1 (by decide)

/-! ### C6 -/

/-- C6 counterexample: at `dbNearThousand`, running `checkAchievements` twice
with no intervening external change yields a non-empty list on the second call
(the first pass's `tasks_10` reward pushes points to 1050, so the second pass
unlocks `points_1000`). -/
theorem C6_idempotence_counterexample :
    (checkAchievements (checkAchievements dbNearThousand 9 0).1 9 0).2 ≠ [] := by
  decide

/-- C6 amended: a second `checkAchievements` call never unlocks an id that is
already unlocked and never removes an existing unlock record, and when the
first call unlocks nothing the second call leaves the store unchanged and
returns an empty list; but when the first pass's rewards newly satisfy an
entry checked earlier in that pass, the second call can unlock it. -/
theorem C6_idempotence_amended (db : DB) (uid : Nat) (now : Int) :
    ((checkAchievements db uid now).2 = [] →
      checkAchievements (checkAchievements db uid now).1 uid now
        = checkAchievements db uid now) ∧
    (∀ a ∈ (checkAchievements (checkAchievements db uid now).1 uid now).2,
      hasUnlock (checkAchievements db uid now).1 uid a.id = false) ∧
    (∀ r ∈ (checkAchievements db uid now).1.achievements,
      r ∈ (checkAchievements (checkAchievements db uid now).1 uid now).1.achievements) := by
  obtain ⟨news, h1, -, -, -, -, -, -, -, h9⟩ := checkLoop_spec uid now ACHIEVEMENTS db []
  rw [List.nil_append] at h1
  obtain ⟨news2, g1, -, g3, g4, -, -, -, -, -⟩ :=
    checkLoop_spec uid now ACHIEVEMENTS (checkAchievements db uid now).1 []
  rw [List.nil_append] at g1
  refine ⟨?_, ?_, ?_⟩
  · intro h0
    have hnews : news = [] := by
      rw [show (checkAchievements db uid now).2 = news from h1] at h0
      exact h0
    have hdb : (checkAchievements db uid now).1 = db := h9 hnews
    rw [hdb]
  · intro a ha
    have ha' : a ∈ news2 := by
      rw [show (checkAchievements (checkAchievements db uid now).1 uid now).2 = news2 from g1] at ha
      exact ha
    exact g3 a ha'
  · intro r hr
    have g4' : (checkAchievements (checkAchievements db uid now).1 uid now).1.achievements
        = (checkAchievements db uid now).1.achievements
          ++ news2.map (fun a => Achievement.mk uid a.id now) := g4
    rw [g4']
    exact List.mem_append_left _ hr

/-- Witness for C6's amended claim: at `dbQuiet` the first call unlocks
nothing, and re-running returns the identical result. -/
theorem C6_idempotence_amended_witness :
    checkAchievements (checkAchievements dbQuiet 9 0).1 9 0 = checkAchievements dbQuiet 9 0 :=
  (C6_idempotence_amended dbQuiet 9 0).1 (by decide)

/-! ### C10 -/

/-- C10: the `totalPoints` field of the completion response equals the user's
points right after adding `pointsEarned`, excluding the rewards of
achievements unlocked during the same request, even though those rewards are
persisted to the stored user record (whose points exceed `totalPoints` by
exactly the sum of the new rewards) before the response is sent. -/
theorem C10_total_points (db : DB) (user : User) (tid : Nat) (now : Int)
    (task : Task)
    (h1 : findTaskOwned db tid user.id = some task)
    (h2 : task.status = Status.pending)
    (h3 : (findUser db user.id).isSome = true) :
    ∃ db' r, completeTask db user tid now = (db', Except.ok r) ∧
      r.totalPoints = user.points + r.pointsEarned ∧
      userPoints db' user.id
        = r.totalPoints + (r.newAchievements.map AchSpec.points).sum ∧
      db'.achievements
        = db.achievements
          ++ r.newAchievements.map (fun a => Achievement.mk user.id a.id now) := by
  have hne : ¬ task.status = Status.completed := by
    rw [h2]; intro hc; cases hc
  unfold completeTask
  rw [h1]
  dsimp only
  rw [if_neg hne]
  set task' : Task := { task with status := Status.completed, completedAt := some now } with htask'
  set pts : Nat := pointsFor task' now with hpts
  set user' : User := { user with points := user.points + pts } with huser'
  set db2 : DB := saveUser (saveTask db task') user' with hdb2
  obtain ⟨news, k1, -, -, k4, k5, -, -, -, -⟩ := checkLoop_spec user.id now ACHIEVEMENTS db2 []
  rw [List.nil_append] at k1
  have hfind2 : findUser db2 user.id = some user' := by
    rw [hdb2]
    unfold findUser saveUser
    exact find?_user_save (saveTask db task').users user.id user' rfl h3
  refine ⟨_, _, rfl, rfl, ?_, ?_⟩
  · show userPoints (checkLoop user.id now ACHIEVEMENTS db2 []).1 user.id
      = user'.points + (((checkLoop user.id now ACHIEVEMENTS db2 []).2).map AchSpec.points).sum
    rw [k1]
    rw [hfind2] at k5
    simp only [Option.map_some'] at k5
    unfold userPoints
    rw [k5]
  · show (checkLoop user.id now ACHIEVEMENTS db2 []).1.achievements
      = db.achievements
        ++ ((checkLoop user.id now ACHIEVEMENTS db2 []).2).map (fun a => Achievement.mk user.id a.id now)
    rw [k1, k4]
    rfl

/-- Witness for C10: completing the pending high-priority deadline task of
`dbPending` early earns 125 points; `first_task` unlocks for 50 more, which
reach the stored record but not `totalPoints`. -/
theorem C10_total_points_witness :
    ∃ db' r, completeTask dbPending ⟨9, 0, 0, 0⟩ 1 5 = (db', Except.ok r) ∧
      r.totalPoints = (0 : Nat) + r.pointsEarned ∧
      userPoints db' 9 = r.totalPoints + (r.newAchievements.map AchSpec.points).sum ∧
      db'.achievements
        = dbPending.achievements
          ++ r.newAchievements.map (fun a => Achievement.mk 9 a.id 5) :=
  C10_total_points dbPending ⟨9, 0, 0, 0⟩ 1 5 pendingDeadlineTask
    (by decide) (by decide) (by decide)

/-! ### C3 -/

/-- Store for C3: user A has id 0; user B (id 1) owns section 1, subsection 2
inside it, and task 3 inside that subsection. -/
def dbTwoUsers : DB :=
  ⟨[⟨0, 0, 0, 0⟩, ⟨1, 0, 0, 0⟩],
   [⟨1, 1, 0⟩],
   [⟨2, 1, 1, 0⟩],
   [⟨3, 1, 1, some 2, TaskType.daily, some 0, none, Priority.medium, Status.pending, none⟩],
   []⟩

/-- C3 (code bug): user A (id 0) invoking the section- and subsection-delete
operations with ids owned by user B (id 1) destroys B's tasks and subsections
(the cascade `deleteMany` calls are not filtered by the requesting user),
while the section/subsection document itself survives because only its own
`findOneAndDelete` is user-scoped. -/
theorem C3_cross_user_delete_bug :
    ((deleteSectionHandler dbTwoUsers 0 1).tasks = [] ∧
     (deleteSectionHandler dbTwoUsers 0 1).subsections = [] ∧
     (deleteSectionHandler dbTwoUsers 0 1).sections = dbTwoUsers.sections ∧
     dbTwoUsers.tasks ≠ [] ∧
     dbTwoUsers.subsections ≠ []) ∧
    ((deleteSubsectionHandler dbTwoUsers 0 2).tasks = [] ∧
     (deleteSubsectionHandler dbTwoUsers 0 2).subsections = dbTwoUsers.subsections) := by
  refine ⟨⟨by decide, by decide, by decide, by decide, by decide⟩, by decide, by decide⟩

/-! ### C4 -/

/-- C4: on login, with `k` the whole-day difference between the
midnight-normalized current time and the midnight-normalized last-active time,
the streak increments by 1 when k = 1, resets to 1 when k > 1, and is
unchanged when k ≤ 0 (same day or clock skew); `lastActiveDate` becomes the
raw (non-normalized) current timestamp unconditionally. -/
theorem C4_streak_update (u : User) (now k : Int)
    (hk : midnightOf now - midnightOf u.lastActiveDate = k * dayMs) :
    (updateStreak u now).lastActiveDate = now ∧
    (k = 1 → (updateStreak u now).streak = u.streak + 1) ∧
    (k > 1 → (updateStreak u now).streak = 1) ∧
    (k ≤ 0 → (updateStreak u now).streak = u.streak) := by
  have hdiv : (midnightOf now - midnightOf u.lastActiveDate).fdiv dayMs = k := by
    rw [hk]
    exact Int.mul_fdiv_cancel k (by decide)
  unfold updateStreak
  dsimp only
  rw [hdiv]
  refine ⟨rfl, ?_, ?_, ?_⟩
  · intro h1
    rw [if_pos h1]
  · intro hgt
    rw [if_neg (by omega), if_pos hgt]
  · intro hle
    rw [if_neg (by omega), if_neg (by omega)]

/-- Witness for C4: a user last active at time 0 logging in exactly one day
later has the streak incremented and `lastActiveDate` set to the login time. -/
theorem C4_streak_update_witness :
    (updateStreak ⟨1, 0, 5, 0⟩ dayMs).lastActiveDate = dayMs ∧
    (updateStreak ⟨1, 0, 5, 0⟩ dayMs).streak = 5 + 1 :=
  ⟨(C4_streak_update ⟨1, 0, 5, 0⟩ dayMs 1 (by decide)).1,
   (C4_streak_update ⟨1, 0, 5, 0⟩ dayMs 1 (by decide)).2.1 rfl⟩

/-! ### C7 -/

/-- Modelled from the spec: round-half-up of a non-negative rational
(`round(x)` in §4.4). -/
def specRoundHalfUp (q : ℚ) : ℕ := ⌊q + 1/2⌋₊

/-- A pending daily task of user 9 (to populate aggregation stores). -/
def pendTask (i : Nat) : Task :=
  ⟨i, 9, 0, none, TaskType.daily, none, none, Priority.medium, Status.pending, none⟩

/-- The spec's §8 aggregation example: section 1 with two direct tasks (one
completed) and subsection 11 with two completed tasks. -/
def dbAgg : DB :=
  ⟨[⟨9, 0, 0, 0⟩], [⟨1, 9, 0⟩], [⟨11, 1, 9, 0⟩],
   [⟨1, 9, 1, none, TaskType.daily, none, none, Priority.medium, Status.completed, some 0⟩,
    ⟨2, 9, 1, none, TaskType.daily, none, none, Priority.medium, Status.pending, none⟩,
    ⟨3, 9, 1, some 11, TaskType.daily, none, none, Priority.medium, Status.completed, some 0⟩,
    ⟨4, 9, 1, some 11, TaskType.daily, none, none, Priority.medium, Status.completed, some 0⟩],
   []⟩

/-- A skewed store: one completed direct task, subsection 11 with three
pending tasks. The union percent (25) differs from any averaging of the
children's percents (100 and 0). -/
def dbSkew : DB :=
  ⟨[⟨9, 0, 0, 0⟩], [⟨1, 9, 0⟩], [⟨11, 1, 9, 0⟩],
   [⟨1, 9, 1, none, TaskType.daily, none, none, Priority.medium, Status.completed, some 0⟩,
    ⟨2, 9, 1, some 11, TaskType.daily, none, none, Priority.medium, Status.pending, none⟩,
    ⟨3, 9, 1, some 11, TaskType.daily, none, none, Priority.medium, Status.pending, none⟩,
    ⟨4, 9, 1, some 11, TaskType.daily, none, none, Priority.medium, Status.pending, none⟩],
   []⟩

/-- C7: the completion percent of a non-empty task list is the round-half-up
of `100 * completedCount / count` and 0 for an empty list; a section's percent
is computed over the union of its direct tasks and its subsections' tasks
(illustrated on the spec's 75% example and on a store where the union percent
25 differs from both children's percents 100 and 0), each subsection's
percent being computed independently over its own tasks. -/
theorem C7_completion_percent :
    (∀ tasks : List Task, tasks ≠ [] →
      percentOf tasks = specRoundHalfUp ((100 * completedIn tasks : ℚ) / tasks.length)) ∧
    percentOf ([] : List Task) = 0 ∧
    (∀ (db : DB) (secId : Nat),
      sectionPercent db secId
        = percentOf (sectionDirectTasks db secId
            ++ (sectionSubsections db secId).flatMap (fun s => subsectionTasks db s.id))) ∧
    (sectionPercent dbAgg 1 = 75 ∧
     percentOf (sectionDirectTasks dbAgg 1) = 50 ∧
     subsectionPercent dbAgg 11 = 100) ∧
    (sectionPercent dbSkew 1 = 25 ∧
     percentOf (sectionDirectTasks dbSkew 1) = 100 ∧
     subsectionPercent dbSkew 11 = 0) := by
  refine ⟨?_, rfl, fun _ _ => rfl, ⟨by decide, by decide, by decide⟩,
    ⟨by decide, by decide, by decide⟩⟩
  intro tasks hne
  have hn : tasks.length ≠ 0 := by
    intro h
    exact hne (List.length_eq_zero.mp h)
  unfold percentOf percentCounts specRoundHalfUp
  rw [if_neg hn]
  have hlen : (tasks.length : ℚ) ≠ 0 := Nat.cast_ne_zero.mpr hn
  have hq : (100 * completedIn tasks : ℚ) / tasks.length + 1/2
      = ((200 * completedIn tasks + tasks.length : ℕ) : ℚ) / ((2 * tasks.length : ℕ) : ℚ) := by
    push_cast
    field_simp
    ring
  rw [hq, Nat.floor_div_nat, Nat.floor_natCast]

/-- Witness for C7: the spec's `1 of 3 completed → 33%` example, matching the
round-half-up formula. -/
theorem C7_completion_percent_witness :
    percentOf [doneTask 1, pendTask 2, pendTask 3]
      = specRoundHalfUp ((100 * completedIn [doneTask 1, pendTask 2, pendTask 3] : ℚ)
          / ([doneTask 1, pendTask 2, pendTask 3] : List Task).length) ∧
    percentOf [doneTask 1, pendTask 2, pendTask 3] = 33 :=
  ⟨C7_completion_percent.1 [doneTask 1, pendTask 2, pendTask 3] (by decide), by decide⟩

/-! ### C8 -/

/-- C8 counterexample: create two sections, delete the first, create a third.
The third is assigned `order = count = 1`, colliding with the surviving
section's order, so the per-user orders are not pairwise distinct. -/
theorem C8_order_counterexample :
    ¬ (ordersOf (runSectionOps DB.empty
        [SectionOp.create 0 1, SectionOp.create 0 2,
         SectionOp.del 0 1, SectionOp.create 0 3]) 0).Nodup := by
  decide

lemma ordersOf_createSection (db : DB) (uid sid : Nat)
    (h : ∀ v, ordersOf db v = List.range (countSections db v)) :
    ∀ v, ordersOf (createSection db uid sid) v
      = List.range (countSections (createSection db uid sid) v) := by
  intro v
  unfold ordersOf countSections createSection
  by_cases hv : uid = v
  · subst hv
    rw [List.filter_append]
    have hone : ([(⟨sid, uid, countSections db uid⟩ : Section)].filter
        (fun s => decide (s.userId = uid))) = [⟨sid, uid, countSections db uid⟩] := by
      simp
    rw [hone, List.map_append, List.length_append]
    have horig := h uid
    unfold ordersOf countSections at horig
    rw [horig]
    have hlen : (db.sections.filter (fun s => decide (s.userId = uid))).length
        = countSections db uid := rfl
    rw [hlen]
    simp [List.range_succ]
  · rw [List.filter_append]
    have hnone : ([(⟨sid, uid, countSections db uid⟩ : Section)].filter
        (fun s => decide (s.userId = v))) = [] := by
      simp [hv]
    rw [hnone, List.append_nil]
    have horig := h v
    unfold ordersOf countSections at horig
    exact horig

lemma runSectionOps_create_inv (ops : List SectionOp) :
    ops.all SectionOp.isCreate = true →
    ∀ db : DB, (∀ v, ordersOf db v = List.range (countSections db v)) →
    ∀ v, ordersOf (runSectionOps db ops) v
      = List.range (countSections (runSectionOps db ops) v) := by
  induction ops with
  | nil =>
    intro _ db h v
    exact h v
  | cons op rest ih =>
    intro hall db h v
    rw [List.all_cons] at hall
    obtain ⟨hop, hrest⟩ := (Bool.and_eq_true _ _).mp hall
    cases op with
    | create uid sid =>
      show ordersOf (runSectionOps (createSection db uid sid) rest) v = _
      exact ih hrest _ (ordersOf_createSection db uid sid h) v
    | del uid sid =>
      simp [SectionOp.isCreate] at hop

/-- C8 amended: a section created through the creation operation is assigned
`order` equal to the user's current section count, and in every state
reachable by creation operations alone each user's section orders are exactly
`0, 1, …, count−1`, hence pairwise distinct; interleaving deletions can break
distinctness (see the counterexample). -/
theorem C8_order_amended (ops : List SectionOp)
    (h : ops.all SectionOp.isCreate = true) (uid : Nat) :
    (∀ (db2 : DB) (u s : Nat),
      (createSection db2 u s).sections
        = db2.sections ++ [⟨s, u, countSections db2 u⟩]) ∧
    ordersOf (runSectionOps DB.empty ops) uid
      = List.range (countSections (runSectionOps DB.empty ops) uid) ∧
    (ordersOf (runSectionOps DB.empty ops) uid).Nodup := by
  have base : ∀ v, ordersOf DB.empty v = List.range (countSections DB.empty v) := by
    intro v
    rfl
  have main := runSectionOps_create_inv ops h DB.empty base uid
  exact ⟨fun _ _ _ => rfl, main, main ▸ List.nodup_range _⟩

/-- Witness for C8's amended claim on a concrete creation-only interleaving of
two users' sections. -/
theorem C8_order_amended_witness :
    (ordersOf (runSectionOps DB.empty
      [SectionOp.create 0 1, SectionOp.create 1 2, SectionOp.create 0 3]) 0).Nodup :=
  (C8_order_amended
    [SectionOp.create 0 1, SectionOp.create 1 2, SectionOp.create 0 3]
    (by decide) 0).2.2

/-! ### C9 -/

/-- A daily task of user 7 due at 18:00 on day 10 (later than `nowNoon`). -/
def laterToday : Task :=
  ⟨1, 7, 0, none, TaskType.daily, some (10 * dayMs + 64800000), none,
   Priority.medium, Status.pending, none⟩

def dbLater : DB := ⟨[⟨7, 0, 0, 0⟩], [], [], [laterToday], []⟩

/-- Noon of day 10. -/
def nowNoon : Int := 10 * dayMs + 43200000

/-- C9 counterexample: `laterToday`'s target date falls on the same calendar
day as `nowNoon`, yet every bucket of the weekly heatmap (including today's)
reports total 0, because the Mongo pre-filter `[now − 7 days, now]` excludes
timestamps after `now` regardless of calendar day. -/
theorem C9_weekly_counterexample :
    taskDay laterToday = some (10 * dayMs + 64800000) ∧
    toDay (10 * dayMs + 64800000) = toDay nowNoon ∧
    (weeklyHeatmap dbLater 7 nowNoon).map DaySummary.total = [0, 0, 0, 0, 0, 0, 0] := by
  refine ⟨rfl, by decide, by decide⟩

/-- Modelled from the amended claim: the tasks counted in the bucket for
calendar day `d` — the user's tasks whose targetDate-or-deadline falls on
`d`'s calendar day AND which pass the `[now − 7 days, now]` timestamp-window
pre-filter on either date field. -/
def bucketTasks (db : DB) (uid : Nat) (now d : Int) : List Task :=
  db.tasks.filter (fun t => onDay t d && weeklyWindow uid now t)

/-- C9 amended: the weekly heatmap returns exactly 7 daily summaries in
chronological order for the calendar days `now − 6·day … now`; each day's
total counts the user's tasks on that calendar day (by targetDate, falling
back to deadline) that additionally lie in the `[now − 7 days, now]`
timestamp window — so tasks due later today, or with the matching field
outside the window, are excluded — completed counts those with status
completed, and percent is the §4.4 formula of those two counts. -/
theorem C9_weekly_amended (db : DB) (uid : Nat) (now : Int) :
    (weeklyHeatmap db uid now).length = 7 ∧
    (∀ j : Nat, j < 7 →
      (weeklyHeatmap db uid now)[j]?
        = some ⟨now - ((6 : Int) - (j : Int)) * dayMs,
            (bucketTasks db uid now (now - ((6 : Int) - (j : Int)) * dayMs)).length,
            completedIn (bucketTasks db uid now (now - ((6 : Int) - (j : Int)) * dayMs)),
            percentCounts
              (completedIn (bucketTasks db uid now (now - ((6 : Int) - (j : Int)) * dayMs)))
              (bucketTasks db uid now (now - ((6 : Int) - (j : Int)) * dayMs)).length⟩) := by
  constructor
  · unfold weeklyHeatmap
    rw [List.length_map, List.length_range]
  · intro j hj
    unfold weeklyHeatmap bucketTasks
    rw [List.getElem?_map, List.getElem?_range hj, Option.map_some']
    dsimp only
    rw [List.filter_filter]
    rfl

/-- Witness for C9's amended claim: today's bucket of `dbLater`'s heatmap. -/
theorem C9_weekly_amended_witness :
    (weeklyHeatmap dbLater 7 nowNoon)[6]?
      = some ⟨nowNoon - ((6 : Int) - ((6 : Nat) : Int)) * dayMs,
          (bucketTasks dbLater 7 nowNoon (nowNoon - ((6 : Int) - ((6 : Nat) : Int)) * dayMs)).length,
          completedIn (bucketTasks dbLater 7 nowNoon (nowNoon - ((6 : Int) - ((6 : Nat) : Int)) * dayMs)),
          percentCounts
            (completedIn (bucketTasks dbLater 7 nowNoon (nowNoon - ((6 : Int) - ((6 : Nat) : Int)) * dayMs)))
            (bucketTasks dbLater 7 nowNoon (nowNoon - ((6 : Int) - ((6 : Nat) : Int)) * dayMs)).length⟩ :=
  (C9_weekly_amended dbLater 7 nowNoon).2 6 (by decide)

end TaskManager
